import Mathlib

/-!
Shallow embedding of the diagnostic core of the shouty template package
(file shouty.py): the suppression policy, the source locator, the patched
variable / conditional render hooks, the suggestion computation and the
configuration validation, each translated from the Python source.
Machine strings are Lean strings, Python dicts are association lists or
option-valued functions, Python exceptions become explicit outcome
inductives, and difflib ratios are exact fractions over Nat.
-/

namespace Shouty

/-- Sentinel for a rule scoped to every template, as in the source. -/
def ANY_TEMPLATE : String := "*"

/-- Sentinel for a rule covering every variable, as in the source. -/
def ANY_VARIABLE : String := "*"

/-- The host engine constant naming an unidentified template source. -/
def UNKNOWN_SOURCE : String := "<unknown source>"

/-- A merged blacklist, as produced by variable_blacklist or
if_else_blacklist in the source: a dict from variable path to the list of
template names it is silenced in. A key that is absent maps to none; the
source reads it with dict.get and a default of the empty list. -/
def Blacklist : Type := String → Option (List String)

/-- Keep the first occurrence of each element, dropping later duplicates.
Models the source loop building contexts_to_search from
all_potential_contexts with a membership test before each append. -/
def dedupKeepFirst {α : Type} [BEq α] (l : List α) : List α :=
  l.foldl (fun acc x => if acc.contains x then acc else acc ++ [x]) []

/-- Translation of is_silenced from the source: the five membership tests
in their source order, returning true on the first that holds. -/
def is_silenced (whole_var template_name : String) (blacklist : Blacklist)
    (all_template_names : List String) : Bool :=
  let ignored_templates_for_this_var := (blacklist whole_var).getD []
  let ignored_templates_for_any_var := (blacklist ANY_VARIABLE).getD []
  if ANY_TEMPLATE ∈ ignored_templates_for_this_var then true
  else if template_name ∈ ignored_templates_for_this_var then true
  else if all_template_names.any
      (fun x => decide (x ∈ ignored_templates_for_this_var)) then true
  else if all_template_names.any
      (fun x => decide (x ∈ ignored_templates_for_any_var)) then true
  else if template_name ∈ ignored_templates_for_any_var then true
  else false

/-- Possible outcomes of the patched Variable resolution
(new_resolve_lookup in the source). value (some v) is a normal return,
value none is the implicit Python return of None reached when the
exception is built but silenced, raisedOriginal re-raises the original
VariableDoesNotExist, and raisedMissing raises the MissingVariable
exception carrying its structured fields. -/
inductive ResolveOutcome (α : Type) where
  | value (v : Option α)
  | raisedOriginal
  | raisedMissing (template_name : String) (all_template_names : List String)
deriving DecidableEq

/-- Translation of the control flow of new_resolve_lookup from the source.
old_result stands for the call to the saved original resolution: ok means
it returned a value, error means it raised VariableDoesNotExist. ced
stands for the result of create_exception_with_template_debug, none
meaning that call itself raised and the except branch substituted the
unknown-source defaults. Message formatting is omitted: it feeds only the
text of the raised exception, not which outcome is taken. -/
def new_resolve_lookup {α : Type} (old_result : Except Unit α)
    (whole_var : String) (blacklist : Blacklist)
    (ced : Option (String × List String)) : ResolveOutcome α :=
  match old_result with
  | Except.ok v => ResolveOutcome.value (some v)
  | Except.error _ =>
    let ignored_templates_for_this_var := (blacklist whole_var).getD []
    let ignored_templates_for_any_var := (blacklist ANY_VARIABLE).getD []
    let not_being_ignored := (blacklist whole_var).isNone
    let has_per_template_ignores :=
      !ignored_templates_for_this_var.isEmpty
        || !ignored_templates_for_any_var.isEmpty
    if not_being_ignored || has_per_template_ignores then
      let template_name := (ced.map Prod.fst).getD UNKNOWN_SOURCE
      let all_template_names := (ced.map Prod.snd).getD [UNKNOWN_SOURCE]
      if is_silenced whole_var template_name blacklist all_template_names then
        ResolveOutcome.value none
      else
        ResolveOutcome.raisedMissing template_name all_template_names
    else
      ResolveOutcome.raisedOriginal

/-- State of one monkeypatched attribute pair in the patch function: which
function is installed (patched = the shouty replacement), the _shouty
idempotency flag read with getattr and a default of False, and a sentinel
counter of how many installation assignments have been performed. -/
structure HookState where
  patched : Bool
  shoutyFlag : Bool
  installCount : Nat
deriving DecidableEq

/-- Combined state of the three extension points the source patches:
Variable resolution, IfNode render and URLNode render. -/
structure PatchState where
  variableHook : HookState
  ifHook : HookState
  urlHook : HookState
deriving DecidableEq

/-- One guarded installation from the source patch function: assign the
replacement and set the flag only when the flag is still False. -/
def installHook (h : HookState) : HookState :=
  if h.shoutyFlag = false then
    { patched := true, shoutyFlag := true, installCount := h.installCount + 1 }
  else h

/-- Translation of patch from the source: refuse when settings.DEBUG is
off, then install the variable and if hooks under invalid_variables and
the url hook under invalid_urls, each guarded by its own flag. Returns
the Python return value together with the new state. -/
def patch (invalid_variables invalid_urls : Bool) (debug : Bool)
    (s : PatchState) : Bool × PatchState :=
  if debug = false then (false, s)
  else
    let s1 :=
      if invalid_variables = true then
        { s with variableHook := installHook s.variableHook,
                 ifHook := installHook s.ifHook }
      else s
    let s2 :=
      if invalid_urls = true then
        { s1 with urlHook := installHook s1.urlHook }
      else s1
    (true, s2)

/-- Model of the Python values a user can put in the
SHOUTY_VARIABLE_BLACKLIST setting: strings, non-string atoms (modelled by
integers), tuples and dicts. -/
inductive PyVal where
  | pstr (s : String)
  | pint (n : Int)
  | ptuple (xs : List PyVal)
  | pdict (entries : List (PyVal × PyVal))

mutual

/-- Structural equality of modelled Python values, Python ==. -/
def PyVal.beq : PyVal → PyVal → Bool
  | PyVal.pstr a, PyVal.pstr b => a == b
  | PyVal.pint a, PyVal.pint b => a == b
  | PyVal.ptuple xs, PyVal.ptuple ys => PyVal.beqList xs ys
  | PyVal.pdict xs, PyVal.pdict ys => PyVal.beqPairs xs ys
  | _, _ => false

/-- Elementwise equality of value lists. -/
def PyVal.beqList : List PyVal → List PyVal → Bool
  | [], [] => true
  | x :: xs, y :: ys => PyVal.beq x y && PyVal.beqList xs ys
  | _, _ => false

/-- Elementwise equality of key and value pair lists. -/
def PyVal.beqPairs : List (PyVal × PyVal) → List (PyVal × PyVal) → Bool
  | [], [] => true
  | x :: xs, y :: ys =>
    PyVal.beq x.1 y.1 && PyVal.beq x.2 y.2 && PyVal.beqPairs xs ys
  | _, _ => false

end

instance : BEq PyVal := ⟨PyVal.beq⟩

/-- Whether a value is a Python string. In the source the corresponding
test is force_text of the value comparing equal to the value itself,
which holds exactly for strings: force_str returns a str unchanged, and a
str never compares equal to a non-str. -/
def PyVal.isStr : PyVal → Bool
  | PyVal.pstr _ => true
  | _ => false

/-- Python repr of a value, as interpolated by format with the r flag.
Only the cases reachable in the validation messages matter; strings use
quote characters and integers their decimal form. -/
def PyVal.pyRepr : PyVal → String
  | PyVal.pstr s => "\x27" ++ s ++ "\x27"
  | PyVal.pint n => toString n
  | PyVal.ptuple _ => "(...)"
  | PyVal.pdict _ => "\x7b...\x7d"

/-- Python str of a value, as interpolated by format without a flag. -/
def PyVal.pyStr : PyVal → String
  | PyVal.pstr s => s
  | PyVal.pint n => toString n
  | PyVal.ptuple _ => "(...)"
  | PyVal.pdict _ => "\x7b...\x7d"

/-- Python iteration over a value: characters of a string become one
character strings, tuples yield their elements, dicts their keys, and an
integer raises TypeError, modelled by none. -/
def PyVal.pyIter : PyVal → Option (List PyVal)
  | PyVal.pstr s => some (s.data.map (fun c => PyVal.pstr (String.mk [c])))
  | PyVal.ptuple xs => some xs
  | PyVal.pdict es => some (es.map Prod.fst)
  | PyVal.pint _ => none

/-- Python len of a value; an integer raises TypeError, modelled none. -/
def PyVal.pyLen : PyVal → Option Nat
  | PyVal.pstr s => some s.length
  | PyVal.ptuple xs => some xs.length
  | PyVal.pdict es => some es.length
  | PyVal.pint _ => none

/-- List of characters of a string, one position at a time, used for the
substring search that models the Python in and find operations. -/
def isPrefixList : List Char → List Char → Bool
  | [], _ => true
  | _ :: _, [] => false
  | p :: ps, x :: xs => p = x && isPrefixList ps xs

/-- Scan a suffix of the source for the pattern, reporting the absolute
position of the first hit at or after pos. -/
def scanSub (pat : List Char) : List Char → Nat → Option Nat
  | [], pos => if pat.isEmpty then some pos else none
  | x :: xs, pos =>
    if isPrefixList pat (x :: xs) then some pos else scanSub pat xs (pos + 1)

/-- Python str.find(pat, i): the least index at least i where pat occurs
in src, none when there is no such occurrence (Python returns -1). -/
def findSubFrom (src pat : List Char) (i : Nat) : Option Nat :=
  if i ≤ src.length then scanSub pat (src.drop i) i else none

/-- Python membership pat in src, substring containment. -/
def strContains (src pat : String) : Bool :=
  (findSubFrom src.data pat.data 0).isSome

/-- Python membership of the any-template sentinel in a templates value:
substring search for strings, element equality for tuples, key membership
for dicts. The integer case is unreachable in the source because len has
already succeeded there. -/
def PyVal.containsStar : PyVal → Bool
  | PyVal.pstr s => strContains s "*"
  | PyVal.ptuple xs => xs.contains (PyVal.pstr "*")
  | PyVal.pdict es => (es.map Prod.fst).contains (PyVal.pstr "*")
  | PyVal.pint _ => false

/-- A structured error as produced by the source through checks.Error:
the message, an optional hint and the obj label. -/
structure CheckError where
  msg : String
  hint : Option String
  obj : String
deriving DecidableEq

/-- The obj label every error in check_user_blacklists carries. -/
def BLACKLIST_OBJ : String := "settings.SHOUTY_VARIABLE_BLACKLIST"

/-- The error appended for a non-string entry, in both the dict-key check
and the iterable-element check of the source. -/
def expectedStringError (v : PyVal) : CheckError :=
  { msg := "Expected " ++ v.pyRepr ++ " to be a string",
    hint := none, obj := BLACKLIST_OBJ }

/-- Errors the dict branch of check_user_blacklists can append for one
key and value pair, in source order. -/
def checkDictEntry (var templates : PyVal) : List CheckError :=
  (if var.isStr = false then [expectedStringError var] else []) ++
  (if templates.isStr = true then
    [{ msg := "Key " ++ var.pyStr ++ " has it\x27s list of templates as a string",
       hint := some "Templates should be like: (\x27template.html\x27, \x27template2.html\x27)",
       obj := BLACKLIST_OBJ }]
   else []) ++
  (match templates.pyLen with
   | none =>
     [{ msg := "Key " ++ var.pyStr ++ " has an unexpected templates defintion",
        hint := some "The value for templates should be like: (\x27template.html\x27, \x27template2.html\x27)",
        obj := BLACKLIST_OBJ }]
   | some template_count =>
     if var == PyVal.pstr "*" && decide (template_count < 1) then
       [{ msg := "Magic variable * has an unexpected templates defintion",
          hint := some "Using * requires you to specify a specific template (or set of templates) to ignore",
          obj := BLACKLIST_OBJ }]
     else if var == PyVal.pstr "*" && templates.containsStar then
       [{ msg := "Magic variable * has an unexpected templates defintion",
          hint := some "Using * for both the variable and template isn\x27t supported, use settings.SHOUTY_VARIABLES = False",
          obj := BLACKLIST_OBJ }]
     else if template_count < 1 then
       [{ msg := "Key " ++ var.pyStr ++ " has an unexpected templates defintion",
          hint := some "There are no templates whitelisted, nor the magic \x27*\x27 value",
          obj := BLACKLIST_OBJ }]
     else [])

/-- Translation of check_user_blacklists from the source. A dict takes
the items branch, validating each entry; any other value is first tested
for being a bare string, then for being iterable at all, and finally each
iterated element must be a string. All violations are collected. -/
def check_user_blacklists (user_blacklist : PyVal) : List CheckError :=
  match user_blacklist with
  | PyVal.pdict entries =>
    entries.flatMap (fun kv => checkDictEntry kv.1 kv.2)
  | other =>
    (if other.isStr = true then
      [{ msg := "Setting appears to be a string",
         hint := some "Should be a sequence or dictionary (eg: [\x27myvar\x27, \x27myvar2\x27])",
         obj := BLACKLIST_OBJ }]
     else []) ++
    (match other.pyIter with
     | none =>
       [{ msg := "Setting doesn\x27t appear to be a sequence",
          hint := some "Should be a sequence or dictionary (eg: [\x27myvar\x27, \x27myvar2\x27])",
          obj := BLACKLIST_OBJ }]
     | some items =>
       items.flatMap (fun var =>
         if var.isStr = false then [expectedStringError var] else []))

/-- One entry of all_potential_contexts in
create_exception_with_template_debug: a template or origin candidate,
reduced to the template name the loop records (none models a Python None
name) and the source text the loop searches. For an Origin whose backing
template cannot be found the source re-fetch substitutes an empty faked
source, which a caller models by passing an empty source string. -/
structure TplCandidate where
  templateName : Option String
  source : String
deriving DecidableEq

/-- The name appended to template_names for a candidate: the unknown
source sentinel when the origin has no template name. -/
def candidateListedName (c : TplCandidate) : String :=
  (c.templateName).getD UNKNOWN_SOURCE

/-- The name used in the early return of the locator, where Python uses
an or fallback, so an empty name also becomes the sentinel. -/
def candidateReturnName (c : TplCandidate) : String :=
  match c.templateName with
  | some n => if n.isEmpty then UNKNOWN_SOURCE else n
  | none => UNKNOWN_SOURCE

/-- Whether the locator loop would return from this candidate: the part
occurs in the source at all, a token position is available, and the part
occurs at or after that position. -/
def candidateMatches (part : String) (tokenPos : Option Nat)
    (c : TplCandidate) : Bool :=
  strContains c.source part &&
    (match tokenPos with
     | some p => (findSubFrom c.source.data part.data p).isSome
     | none => false)

/-- The span the locator returns from a matching candidate: the first
occurrence of the part at or after the token position, paired with its
end offset. none when the candidate does not yield a match. -/
def matchSpan (part : String) (tokenPos : Option Nat) (c : TplCandidate) :
    Option (Nat × Nat) :=
  match tokenPos with
  | some p =>
    match findSubFrom c.source.data part.data p with
    | some start => some (start, start + part.length)
    | none => none
  | none => none

/-- The loop of create_exception_with_template_debug over the deduped
candidates, carrying the template_names accumulator. Each iteration first
appends the candidate name, then, if the part occurs in the source and a
token position exists and the find from that position succeeds, returns
that candidate name, the span and the names gathered so far. -/
def locatorLoop (part : String) (tokenPos : Option Nat) :
    List TplCandidate → List String → String × Option (Nat × Nat) × List String
  | [], names =>
    (UNKNOWN_SOURCE, none,
      if names.contains UNKNOWN_SOURCE then names else names ++ [UNKNOWN_SOURCE])
  | c :: rest, names =>
    let names := names ++ [candidateListedName c]
    if strContains c.source part then
      match tokenPos with
      | some p =>
        match findSubFrom c.source.data part.data p with
        | some start =>
          (candidateReturnName c, some (start, start + part.length), names)
        | none => locatorLoop part tokenPos rest names
      | none => locatorLoop part tokenPos rest names
    else locatorLoop part tokenPos rest names

/-- Translation of create_exception_with_template_debug from the source:
deduplicate the potential contexts preserving their priority order, then
run the search loop. The exc_info dict reduces to its span, so the second
component none models the empty dict of the no-match fallback. -/
def create_exception_with_template_debug (part : String)
    (tokenPos : Option Nat) (all_potential_contexts : List TplCandidate) :
    String × Option (Nat × Nat) × List String :=
  locatorLoop part tokenPos (dedupKeepFirst all_potential_contexts) []

/-- Result of force-resolving one leaf condition value in new_if_render:
it either succeeds, raises the distinguished MissingVariable, or raises
an exception of any other type. -/
inductive CondEval where
  | ok
  | raiseMissing
  | raiseOther
deriving DecidableEq, BEq

/-- A node of the parsed condition of an if tag: the first and second
operand links (absent links model Python None attributes), whether the
node carries a value with a resolve method, the outcome its forced
resolution would have, and a tag distinguishing physically distinct
Python objects so that the identity based dedup is modelled exactly. -/
inductive CondTree where
  | mk (first : Option CondTree) (second : Option CondTree)
      (resolvable : Bool) (outcome : CondEval) (tag : Nat)

mutual

/-- Structural equality of condition trees. -/
def CondTree.beq : CondTree → CondTree → Bool
  | CondTree.mk f1 s1 r1 o1 t1, CondTree.mk f2 s2 r2 o2 t2 =>
    CondTree.beqOpt f1 f2 && CondTree.beqOpt s1 s2
      && r1 == r2 && o1 == o2 && t1 == t2

/-- Structural equality of optional condition trees. -/
def CondTree.beqOpt : Option CondTree → Option CondTree → Bool
  | none, none => true
  | some a, some b => CondTree.beq a b
  | _, _ => false

end

instance : BEq CondTree := ⟨CondTree.beq⟩

/-- Translation of extract_first_second_from_branch from the source:
recurse into a present first link and a present second link, and yield
the node itself exactly when both links are absent. -/
def extract_first_second_from_branch : CondTree → List CondTree
  | CondTree.mk none none r o t => [CondTree.mk none none r o t]
  | CondTree.mk (some a) none _ _ _ => extract_first_second_from_branch a
  | CondTree.mk none (some b) _ _ _ => extract_first_second_from_branch b
  | CondTree.mk (some a) (some b) _ _ _ =>
    extract_first_second_from_branch a ++ extract_first_second_from_branch b

/-- The condition collection loop of new_if_render: walk every non-None
condition of conditions_nodelists, extract the leaves, and keep the first
occurrence of each (conditions_seen in the source). -/
def collectConditions (condLists : List (Option CondTree)) : List CondTree :=
  dedupKeepFirst ((condLists.filterMap id).flatMap extract_first_second_from_branch)

/-- Forced resolution of one collected leaf: the source resolves
condition.value when both hasattr checks pass, so an unresolvable leaf is
skipped and a resolvable one contributes its raise, if any. -/
def leafRaise (c : CondTree) : Option CondEval :=
  match c with
  | CondTree.mk _ _ r o _ =>
    if r = true then
      match o with
      | CondEval.ok => none
      | e => some e
    else none

/-- The first exception escaping the forced resolution loop of
new_if_render, none when every forced resolution succeeds. -/
def forcedRaise (conds : List CondTree) : Option CondEval :=
  conds.findSome? leafRaise

/-- Outcome of the patched IfNode render: a rendered string, the raised
no-else exhaustiveness MissingVariable, a MissingVariable raised from a
forced leaf resolution, or an exception of any other type escaping the
forced resolution loop. -/
inductive IfRenderOutcome where
  | rendered (s : String)
  | raisedNoElse
  | raisedMissing
  | raisedOther
deriving DecidableEq

/-- The no-else branch of new_if_render: the chain has more than one
condition and nodelist pair and the last pair still has a condition, the
blacklist route is taken, and the exception is raised when the engine
debug flag is on (the exc_info value is a dict in both source paths and
therefore never None) and the token is not silenced. ced stands for the
create_exception_with_template_debug result as in new_resolve_lookup. -/
def noElseRaises (token_contents : String) (condLists : List (Option CondTree))
    (blacklist : Blacklist) (engineDebug : Bool)
    (ced : Option (String × List String)) : Bool :=
  if 1 < condLists.length then
    match condLists.getLast? with
    | some (some _) =>
      let ignored_templates_for_this_var := (blacklist token_contents).getD []
      let ignored_templates_for_any_var := (blacklist ANY_VARIABLE).getD []
      let not_being_ignored := (blacklist token_contents).isNone
      let has_per_template_ignores :=
        !ignored_templates_for_this_var.isEmpty
          || !ignored_templates_for_any_var.isEmpty
      if not_being_ignored || has_per_template_ignores then
        let template_name := (ced.map Prod.fst).getD UNKNOWN_SOURCE
        let all_template_names := (ced.map Prod.snd).getD [UNKNOWN_SOURCE]
        if engineDebug then
          !(is_silenced token_contents template_name blacklist all_template_names)
        else false
      else false
    | _ => false
  else false

/-- Translation of new_if_render from the source: first the no-else
check, which may raise; then, unconditionally, the collection of all leaf
conditions and their forced resolution, the first raise of which escapes
whatever its type; and only then the delegation to the saved original
render, whose result old_render_result is returned unchanged. -/
def new_if_render (token_contents : String) (condLists : List (Option CondTree))
    (blacklist : Blacklist) (engineDebug : Bool)
    (ced : Option (String × List String)) (old_render_result : String) :
    IfRenderOutcome :=
  if noElseRaises token_contents condLists blacklist engineDebug ced then
    IfRenderOutcome.raisedNoElse
  else
    match forcedRaise (collectConditions condLists) with
    | some CondEval.raiseMissing => IfRenderOutcome.raisedMissing
    | some CondEval.raiseOther => IfRenderOutcome.raisedOther
    | _ => IfRenderOutcome.rendered old_render_result

/-- An exact fraction with a positive denominator: the value is
num / (den1 + 1). CPython computes difflib ratios as floats; for the
short names compared here the float ordering agrees with the exact
rational ordering, so fractions model the scores faithfully. -/
structure Frac where
  num : Nat
  den1 : Nat
deriving DecidableEq

/-- Comparison num a / den a < num b / den b by cross multiplication. -/
def fracLt (a b : Frac) : Bool :=
  decide (a.num * (b.den1 + 1) < b.num * (a.den1 + 1))

/-- Comparison num a / den a is at most num b / den b. -/
def fracLe (a b : Frac) : Bool :=
  decide (a.num * (b.den1 + 1) ≤ b.num * (a.den1 + 1))

/-- The _calculate_ratio helper of difflib: 2 matches / length, and 1
when the combined length is zero. -/
def calcFrac (matched length : Nat) : Frac :=
  if length = 0 then { num := 1, den1 := 0 }
  else { num := 2 * matched, den1 := length - 1 }

/-- The difflib cutoff of 0.6 used by get_close_matches. -/
def cutoffFrac : Frac := { num := 3, den1 := 4 }

/-- Lowercasing as applied by the source before matching; ASCII faithful
to Python str.lower. -/
def lowerStr (s : String) : String := String.mk (s.data.map Char.toLower)

/-- Python string comparison, lexicographic on code points, used through
tuple comparison when heapq.nlargest orders equal-ratio entries. -/
def charListLt : List Char → List Char → Bool
  | _, [] => false
  | [], _ :: _ => true
  | a :: as, b :: bs => if a = b then charListLt as bs else decide (a < b)

/-- Length of the common run of the two lists from their heads. -/
def runLen : List Char → List Char → Nat
  | a :: as, b :: bs => if a = b then runLen as bs + 1 else 0
  | _, _ => 0

/-- find_longest_match of SequenceMatcher on junk-free inputs: scan all
start pairs in ascending order, keep the first strictly longer run, so
the longest match with the least first index and then least second index
wins, as in the CPython loop over match end positions. -/
def findLongestMatch (a b : List Char) : Nat × Nat × Nat :=
  (List.range a.length).foldl (fun best i =>
    (List.range b.length).foldl (fun best j =>
      let k := runLen (a.drop i) (b.drop j)
      if best.2.2 < k then (i, j, k) else best) best) (0, 0, 0)

/-- Total size of the matching blocks of SequenceMatcher: take the
longest match, then recurse on the segments to its left and right. The
fuel argument dominates the recursion depth; both segment pairs shrink
strictly, so combined lengths plus one is always enough. -/
def matchTotal : Nat → List Char → List Char → Nat
  | 0, _, _ => 0
  | fuel + 1, a, b =>
    let m := findLongestMatch a b
    let i := m.1
    let j := m.2.1
    let k := m.2.2
    if k = 0 then 0
    else
      matchTotal fuel (a.take i) (b.take j) + k +
        matchTotal fuel (a.drop (i + k)) (b.drop (j + k))

/-- Number of matching elements between the two sequences, difflib
get_matching_blocks sizes summed. -/
def totalMatches (a b : List Char) : Nat :=
  matchTotal (a.length + b.length + 1) a b

/-- SequenceMatcher ratio with seq1 = a and seq2 = b. -/
def seqMatcherScore (a b : List Char) : Frac :=
  calcFrac (totalMatches a b) (a.length + b.length)

/-- quick_ratio of SequenceMatcher: counts of elements in common as
multisets; the CPython avail bookkeeping computes exactly the sum over
distinct elements of the smaller of the two occurrence counts. -/
def quickScore (a b : List Char) : Frac :=
  calcFrac (((dedupKeepFirst a).map (fun c => min (a.count c) (b.count c))).sum)
    (a.length + b.length)

/-- real_quick_ratio of SequenceMatcher: the shorter length as an upper
bound on the number of matches. -/
def realQuickScore (a b : List Char) : Frac :=
  calcFrac (min a.length b.length) (a.length + b.length)

/-- Ordering used by heapq.nlargest over (ratio, candidate) pairs, which
compares tuples: by ratio value first, then by the string. scoreGe p q
says p sorts at or before q in the descending output. -/
def scoreGe (p q : Frac × String) : Bool :=
  fracLt q.1 p.1 || (!(fracLt p.1 q.1) && !(charListLt p.2.data q.2.data))

/-- The propositional form of scoreGe for the sorting library. -/
def scoreGeP (p q : Frac × String) : Prop := scoreGe p q = true

instance : DecidableRel scoreGeP := fun p q => instDecidableEqBool (scoreGe p q) true

/-- The scored survivor list built inside get_close_matches: each
possibility passing the real_quick_ratio, quick_ratio and ratio gates is
paired with its ratio. -/
def gcmScored (word : String) (possibilities : List String) :
    List (Frac × String) :=
  possibilities.filterMap (fun x =>
    if fracLe cutoffFrac (realQuickScore x.data word.data) then
      if fracLe cutoffFrac (quickScore x.data word.data) then
        if fracLe cutoffFrac (seqMatcherScore x.data word.data) then
          some (seqMatcherScore x.data word.data, x)
        else none
      else none
    else none)

/-- Translation of difflib.get_close_matches with the default n = 3 and
cutoff = 0.6: filter through the three ratio gates, order the survivors
as heapq.nlargest does over the (ratio, candidate) tuples, and keep at
most three. -/
def get_close_matches (word : String) (possibilities : List String) :
    List String :=
  ((List.insertionSort scoreGeP (gcmScored word possibilities)).take 3).map
    Prod.snd

/-- Insert or overwrite one key in an association list, keeping the
position of an existing key, as a Python dict comprehension does. -/
def assocUpsert : List (String × String) → String → String → List (String × String)
  | [], k, v => [(k, v)]
  | (k0, v0) :: rest, k, v =>
    if k0 = k then (k, v) :: rest else (k0, v0) :: assocUpsert rest k v

/-- First value stored under a key in an association list. -/
def assocFind : List (String × String) → String → Option String
  | [], _ => none
  | (k0, v0) :: rest, k => if k0 = k then some v0 else assocFind rest k

/-- The possibilities_mapped dict of the source: lowercased name to the
original name, later duplicates overwriting earlier values in place. -/
def possibilities_mapped (possibilities : List String) : List (String × String) :=
  possibilities.foldl (fun m poss => assocUpsert m (lowerStr poss) poss) []

/-- The suggestion computation of new_resolve_lookup: build the lowercase
map, run get_close_matches against its keys with the lowercased failing
token, and when anything matched map each result back to its original
casing, keeping only keys present in the map as the source comprehension
does. -/
def suggestClosest (possibilities : List String) (bit : String) : List String :=
  let pm := possibilities_mapped possibilities
  let closest := get_close_matches (lowerStr bit) (pm.map Prod.fst)
  if closest.isEmpty then closest
  else closest.filterMap (fun m => assocFind pm m)

/-- Whether a name starts with an underscore; the source tests x[0],
assuming the nonempty member names Python enumeration yields. -/
def startsWithUnderscore (s : String) : Bool :=
  match s.data with
  | c :: _ => c = '_'
  | [] => false

/-- The final candidate pool of the source: the shape-specific
possibilities and the dir(current) members, each with underscore-initial
names removed, united as a set; the union is modelled as order-preserving
concatenation with duplicates dropped. -/
def buildPossibilities (possibilities dirCurrent : List String) : List String :=
  dedupKeepFirst
    ((possibilities.filter (fun x => !(startsWithUnderscore x))) ++
      (dirCurrent.filter (fun x => !(startsWithUnderscore x))))

/-- The similarity score the code path assigns to original-cased
candidate s against failing token bit: the SequenceMatcher ratio of the
lowercased pair, candidate first. -/
def simScore (bit s : String) : Frac :=
  seqMatcherScore (lowerStr s).data (lowerStr bit).data

/-- The rational value of a fraction, used only to reason about the
ordering. -/
def Frac.val (f : Frac) : ℚ := (f.num : ℚ) / ((f.den1 : ℚ) + 1)

/-- The names list of the locator fallback: the unknown source sentinel
is appended when not already present. -/
def appendUnknown (names : List String) : List String :=
  if names.contains UNKNOWN_SOURCE then names else names ++ [UNKNOWN_SOURCE]

/-- Characterization of is_silenced as the disjunction of its five
membership conditions, shared by the claims about the suppression
policy. -/
theorem is_silenced_iff (whole_var template_name : String) (bl : Blacklist)
    (all_template_names : List String) :
    is_silenced whole_var template_name bl all_template_names = true ↔
      (ANY_TEMPLATE ∈ (bl whole_var).getD [] ∨
        template_name ∈ (bl whole_var).getD [] ∨
        (∃ x ∈ all_template_names, x ∈ (bl whole_var).getD []) ∨
        (∃ x ∈ all_template_names, x ∈ (bl ANY_VARIABLE).getD []) ∨
        template_name ∈ (bl ANY_VARIABLE).getD []) := by
  simp only [is_silenced, List.any_eq_true, decide_eq_true_eq]
  split_ifs with h1 h2 h3 h4 h5
  · exact iff_of_true rfl (Or.inl h1)
  · exact iff_of_true rfl (Or.inr (Or.inl h2))
  · exact iff_of_true rfl (Or.inr (Or.inr (Or.inl h3)))
  · exact iff_of_true rfl (Or.inr (Or.inr (Or.inr (Or.inl h4))))
  · exact iff_of_true rfl (Or.inr (Or.inr (Or.inr (Or.inr h5))))
  · refine iff_of_false (by simp) ?_
    rintro (h | h | h | h | h)
    · exact h1 h
    · exact h2 h
    · exact h3 h
    · exact h4 h
    · exact h5 h

/-- C1: is_silenced returns true exactly when one of the five conditions
holds: the any-template sentinel in the per-variable scope set, the
resolved template name in the per-variable scope set, a candidate name in
the per-variable scope set, a candidate name in the any-variable scope
set, or the resolved template name in the any-variable scope set. -/
theorem c1_is_silenced_characterized (whole_var template_name : String)
    (bl : Blacklist) (all_template_names : List String) :
    is_silenced whole_var template_name bl all_template_names = true ↔
      (ANY_TEMPLATE ∈ (bl whole_var).getD [] ∨
        template_name ∈ (bl whole_var).getD [] ∨
        (∃ x ∈ all_template_names, x ∈ (bl whole_var).getD []) ∨
        (∃ x ∈ all_template_names, x ∈ (bl ANY_VARIABLE).getD []) ∨
        template_name ∈ (bl ANY_VARIABLE).getD []) :=
  is_silenced_iff whole_var template_name bl all_template_names

/-- C6: is_silenced is monotone in the rule set: growing any scope set of
the blacklist pointwise can only turn a raise into a suppress, never the
reverse. -/
theorem c6_is_silenced_monotone (whole_var template_name : String)
    (all_template_names : List String) (R R2 : Blacklist)
    (hext : ∀ k x, x ∈ (R k).getD [] → x ∈ (R2 k).getD [])
    (h : is_silenced whole_var template_name R all_template_names = true) :
    is_silenced whole_var template_name R2 all_template_names = true := by
  rw [is_silenced_iff] at h ⊢
  rcases h with h | h | ⟨x, hx, hm⟩ | ⟨x, hx, hm⟩ | h
  · exact Or.inl (hext _ _ h)
  · exact Or.inr (Or.inl (hext _ _ h))
  · exact Or.inr (Or.inr (Or.inl ⟨x, hx, hext _ _ hm⟩))
  · exact Or.inr (Or.inr (Or.inr (Or.inl ⟨x, hx, hext _ _ hm⟩)))
  · exact Or.inr (Or.inr (Or.inr (Or.inr (hext _ _ h))))

/-- Witness for C6 at a concrete rule set: the rule set mapping a to one
template extended with a second template still silences the failure the
smaller set silenced. -/
theorem c6_is_silenced_monotone_witness :
    is_silenced "a" "t.html"
      (fun k => if k = "a" then some ["t.html", "u.html"] else none) [] = true := by
  apply c6_is_silenced_monotone "a" "t.html" []
    (fun k => if k = "a" then some ["t.html"] else none)
    (fun k => if k = "a" then some ["t.html", "u.html"] else none)
  · intro k x hx
    by_cases hk : k = "a"
    · subst hk
      simp at hx ⊢
      tauto
    · simp [hk] at hx
  · decide

/-- C7: the patch operation is idempotent: a second call with the same
flags returns the same value and leaves the state of the first call
untouched; a hook whose idempotency flag is already set is never
reinstalled nor uninstalled; and a hook whose flag is clear is installed
exactly once, bumping its sentinel counter exactly to one more. -/
theorem c7_patch_idempotent (iv iu dbg : Bool) (s : PatchState) :
    patch iv iu dbg (patch iv iu dbg s).2 = patch iv iu dbg s
  ∧ (s.variableHook.shoutyFlag = true →
      (patch iv iu dbg s).2.variableHook = s.variableHook)
  ∧ (s.ifHook.shoutyFlag = true → (patch iv iu dbg s).2.ifHook = s.ifHook)
  ∧ (s.urlHook.shoutyFlag = true → (patch iv iu dbg s).2.urlHook = s.urlHook)
  ∧ (s.variableHook.shoutyFlag = false → iv = true → dbg = true →
      (patch iv iu dbg s).2.variableHook =
        { patched := true, shoutyFlag := true,
          installCount := s.variableHook.installCount + 1 }) := by
  obtain ⟨⟨vp, vf, vc⟩, ⟨ip, ifl, ic⟩, ⟨up, uf, uc⟩⟩ := s
  cases dbg <;> cases iv <;> cases iu <;> cases vf <;> cases ifl <;> cases uf <;>
    simp [patch, installHook]

/-- Witness for C7 from the unpatched initial state with both features
enabled in debug: the second call changes nothing, and the variable hook
is installed with a single counter increment. -/
theorem c7_patch_idempotent_witness :
    patch true true true
        (patch true true true
          { variableHook := { patched := false, shoutyFlag := false, installCount := 0 },
            ifHook := { patched := false, shoutyFlag := false, installCount := 0 },
            urlHook := { patched := false, shoutyFlag := false, installCount := 0 } }).2 =
      patch true true true
        { variableHook := { patched := false, shoutyFlag := false, installCount := 0 },
          ifHook := { patched := false, shoutyFlag := false, installCount := 0 },
          urlHook := { patched := false, shoutyFlag := false, installCount := 0 } }
  ∧ (patch true true true
        { variableHook := { patched := false, shoutyFlag := false, installCount := 0 },
          ifHook := { patched := false, shoutyFlag := false, installCount := 0 },
          urlHook := { patched := false, shoutyFlag := false, installCount := 0 } }).2.variableHook =
      { patched := true, shoutyFlag := true, installCount := 1 } := by
  refine ⟨(c7_patch_idempotent true true true _).1, ?_⟩
  exact (c7_patch_idempotent true true true _).2.2.2.2 rfl rfl rfl

/-- The no-else diagnostic of new_if_render can never fire with the
engine debug flag off: its innermost guard is the debug flag. -/
theorem noElseRaises_debug_off (token_contents : String)
    (condLists : List (Option CondTree)) (bl : Blacklist)
    (ced : Option (String × List String)) :
    noElseRaises token_contents condLists bl false ced = false := by
  simp only [noElseRaises]
  split_ifs with h1 h2 h3
  · exact h3.elim
  · cases condLists.getLast? with
    | none => rfl
    | some o => cases o <;> rfl
  · cases condLists.getLast? with
    | none => rfl
    | some o => cases o <;> rfl
  · rfl

/-- C10: with the template engine debug flag off, an if or elif chain
without a terminal else, detected by the patched render (more than one
condition and nodelist pair, the last still carrying a condition), still
renders without the exhaustiveness diagnostic being raised. -/
theorem c10_no_else_needs_debug (token_contents : String)
    (condLists : List (Option CondTree)) (bl : Blacklist)
    (ced : Option (String × List String)) (old_render_result : String)
    (_hlen : 1 < condLists.length)
    (_hlast : (condLists.getLast?.getD none).isSome = true) :
    new_if_render token_contents condLists bl false ced old_render_result ≠
      IfRenderOutcome.raisedNoElse := by
  simp only [new_if_render, noElseRaises_debug_off, if_neg]
  match forcedRaise (collectConditions condLists) with
  | some CondEval.raiseMissing => simp
  | some CondEval.raiseOther => simp
  | some CondEval.ok => simp
  | none => simp

/-- Witness for C10 at a concrete undetected-else chain of length two
with no raising leaves: the render goes through. -/
theorem c10_no_else_needs_debug_witness :
    new_if_render "if a" [some (CondTree.mk none none true CondEval.ok 1),
        some (CondTree.mk none none true CondEval.ok 2)]
      (fun _ => none) false none "out" ≠ IfRenderOutcome.raisedNoElse :=
  c10_no_else_needs_debug "if a"
    [some (CondTree.mk none none true CondEval.ok 1),
      some (CondTree.mk none none true CondEval.ok 2)]
    (fun _ => none) none "out" (by decide) (by decide)

/-- Counterexample to C3: the claim says the forced walk happens only for
a falsy render result and that a non-distinguished exception raised
during it is suppressed and discarded, so for this input, an if chain
whose second leaf raises an exception of another type, the render should
complete and return the empty falsy result; the translated code instead
propagates the other exception. -/
theorem c3_counterexample :
    new_if_render "if False and boom"
        [some (CondTree.mk
          (some (CondTree.mk none none true CondEval.ok 1))
          (some (CondTree.mk none none true CondEval.raiseOther 2))
          false CondEval.ok 0)]
        (fun _ => none) true none "" = IfRenderOutcome.raisedOther
  ∧ IfRenderOutcome.raisedOther ≠ IfRenderOutcome.rendered "" := by
  constructor
  · rfl
  · decide

/-- C3 as amended: whenever the no-else check does not raise, the patched
if render walks the operand trees of every condition depth first over the
first and second links down to the leaves, deduplicates them, and
force-resolves each resolvable leaf before the original render runs and
regardless of the truthiness of its result; the first exception raised
propagates whether or not it is the distinguished type. The second part
shows the short-circuit scenario: in if False and undefined_var the
skipped leaf still raises the distinguished exception. -/
theorem c3_forced_resolution_amended :
    (∀ (token_contents : String) (condLists : List (Option CondTree))
        (bl : Blacklist) (engineDebug : Bool)
        (ced : Option (String × List String)) (old_render_result : String),
      noElseRaises token_contents condLists bl engineDebug ced = false →
      new_if_render token_contents condLists bl engineDebug ced
          old_render_result =
        match forcedRaise (collectConditions condLists) with
        | some CondEval.raiseMissing => IfRenderOutcome.raisedMissing
        | some CondEval.raiseOther => IfRenderOutcome.raisedOther
        | _ => IfRenderOutcome.rendered old_render_result)
  ∧ new_if_render "if False and undefined_var"
      [some (CondTree.mk
        (some (CondTree.mk none none true CondEval.ok 1))
        (some (CondTree.mk none none true CondEval.raiseMissing 2))
        false CondEval.ok 0)]
      (fun _ => none) true none "x" = IfRenderOutcome.raisedMissing := by
  constructor
  · intro token_contents condLists bl engineDebug ced old_render_result h
    simp only [new_if_render, h, if_neg]
    rfl
  · rfl

/-- Witness for C3 as amended, applied with no conditions at all: the
original render result is returned unchanged. -/
theorem c3_forced_resolution_amended_witness :
    new_if_render "t" [] (fun _ => none) false none "out" =
      IfRenderOutcome.rendered "out" := by
  have h := c3_forced_resolution_amended.1 "t" [] (fun _ => none) false none
    "out" (by decide)
  exact h.trans (by decide)

/-- Counterexample to C4: the claim says every suppressed lookup failure
re-raises the original low-level signal unchanged; here the failure on a
is suppressed by the star rule for a, yet the translated code returns the
Python None value instead of re-raising the original exception. -/
theorem c4_counterexample :
    new_resolve_lookup (Except.error () : Except Unit Nat) "a"
        (fun k => if k = "a" then some ["*"] else none) none =
      ResolveOutcome.value none
  ∧ is_silenced "a" UNKNOWN_SOURCE
      (fun k => if k = "a" then some ["*"] else none) [UNKNOWN_SOURCE] = true
  ∧ ResolveOutcome.value (none : Option Nat) ≠
      (ResolveOutcome.raisedOriginal : ResolveOutcome Nat) := by
  refine ⟨rfl, by decide, by decide⟩

/-- C4 as amended: the original does-not-exist signal is re-raised
unchanged only on the excluded route, where the variable has a rule entry
whose scope list is empty and no any-variable scopes exist; on the
eligible route a failure that is_silenced suppresses does not re-raise
but returns the Python None value in place of the host behavior. -/
theorem c4_suppression_returns_none_amended (whole_var : String)
    (bl : Blacklist) (ced : Option (String × List String)) :
    (((bl whole_var).isNone || !((bl whole_var).getD []).isEmpty
        || !((bl ANY_VARIABLE).getD []).isEmpty) = false →
      new_resolve_lookup (Except.error () : Except Unit Nat) whole_var bl ced =
        ResolveOutcome.raisedOriginal)
  ∧ (((bl whole_var).isNone || !((bl whole_var).getD []).isEmpty
        || !((bl ANY_VARIABLE).getD []).isEmpty) = true →
      is_silenced whole_var ((ced.map Prod.fst).getD UNKNOWN_SOURCE) bl
          ((ced.map Prod.snd).getD [UNKNOWN_SOURCE]) = true →
      new_resolve_lookup (Except.error () : Except Unit Nat) whole_var bl ced =
        ResolveOutcome.value none) := by
  constructor
  · intro h
    simp only [new_resolve_lookup]
    rw [Bool.or_assoc] at h
    rw [if_neg]
    simp [h]
  · intro h hs
    simp only [new_resolve_lookup]
    rw [Bool.or_assoc] at h
    rw [if_pos (by simp [h]), if_pos hs]

/-- Witness for C4 as amended at two concrete rule sets: an entry with an
empty scope list re-raises the original signal, and a star-scoped entry
returns None. -/
theorem c4_suppression_returns_none_amended_witness :
    new_resolve_lookup (Except.error () : Except Unit Nat) "b"
        (fun k => if k = "b" then some [] else none) none =
      ResolveOutcome.raisedOriginal
  ∧ new_resolve_lookup (Except.error () : Except Unit Nat) "a"
        (fun k => if k = "a" then some ["*"] else none) none =
      ResolveOutcome.value none :=
  ⟨(c4_suppression_returns_none_amended "b"
      (fun k => if k = "b" then some [] else none) none).1 (by decide),
    (c4_suppression_returns_none_amended "a"
      (fun k => if k = "a" then some ["*"] else none) none).2 (by decide)
      (by decide)⟩

/-- Membership survives the fallback append of the unknown-source
sentinel. -/
theorem mem_appendUnknown {x : String} {ns : List String} (h : x ∈ ns) :
    x ∈ appendUnknown ns := by
  unfold appendUnknown
  split_ifs
  · exact h
  · exact List.mem_append_left _ h

/-- When no candidate matches, the locator loop reaches its fallback with
every candidate name accumulated in order. -/
theorem locatorLoop_no_match (part : String) (tokenPos : Option Nat) :
    ∀ (l : List TplCandidate) (names : List String),
    (∀ c ∈ l, candidateMatches part tokenPos c = false) →
    locatorLoop part tokenPos l names =
      (UNKNOWN_SOURCE, none,
        appendUnknown (names ++ l.map candidateListedName)) := by
  intro l
  induction l with
  | nil =>
    intro names _
    rw [List.map_nil, List.append_nil]
    rfl
  | cons c rest ih =>
    intro names h
    have hc := h c (List.mem_cons_self c rest)
    have hrest : ∀ x ∈ rest, candidateMatches part tokenPos x = false :=
      fun x hx => h x (List.mem_cons_of_mem c hx)
    simp only [locatorLoop]
    cases tokenPos with
    | none =>
      by_cases hS : strContains c.source part = true
      · rw [if_pos hS, ih _ hrest]
        simp
      · rw [if_neg hS, ih _ hrest]
        simp
    | some p =>
      by_cases hS : strContains c.source part = true
      · rw [if_pos hS]
        have hfind : findSubFrom c.source.data part.data p = none := by
          cases hf2 : findSubFrom c.source.data part.data p with
          | none => rfl
          | some s =>
            unfold candidateMatches at hc
            simp [hS, hf2] at hc
        simp only [hfind, ih _ hrest]
        simp
      · rw [if_neg hS, ih _ hrest]
        simp

/-- On the match path the locator loop walks past the non-matching
candidates, accumulating their names, and returns from the first matching
candidate with its return name, its span, and exactly the names gathered
up to and including it: nothing after the match is listed. -/
theorem locatorLoop_match (part : String) (tokenPos : Option Nat) :
    ∀ (pre : List TplCandidate) (c : TplCandidate) (post : List TplCandidate)
      (names : List String),
    (∀ d ∈ pre, candidateMatches part tokenPos d = false) →
    candidateMatches part tokenPos c = true →
    locatorLoop part tokenPos (pre ++ c :: post) names =
      (candidateReturnName c, matchSpan part tokenPos c,
        names ++ (pre ++ [c]).map candidateListedName) := by
  intro pre
  induction pre with
  | nil =>
    intro c post names _ hc
    rw [List.nil_append]
    simp only [locatorLoop]
    unfold candidateMatches at hc
    rw [Bool.and_eq_true] at hc
    obtain ⟨hS, hm⟩ := hc
    rw [if_pos hS]
    cases tokenPos with
    | none => simp at hm
    | some p =>
      cases hfind : findSubFrom c.source.data part.data p with
      | none => simp [hfind] at hm
      | some start => simp [matchSpan, hfind]
  | cons d pre2 ih =>
    intro c post names hpre hc
    have hd := hpre d (List.mem_cons_self d pre2)
    have hpre2 : ∀ x ∈ pre2, candidateMatches part tokenPos x = false :=
      fun x hx => hpre x (List.mem_cons_of_mem d hx)
    rw [List.cons_append]
    simp only [locatorLoop]
    cases tokenPos with
    | none =>
      by_cases hS : strContains d.source part = true
      · rw [if_pos hS, ih c post _ hpre2 hc]
        simp
      · rw [if_neg hS, ih c post _ hpre2 hc]
        simp
    | some p =>
      by_cases hS : strContains d.source part = true
      · rw [if_pos hS]
        have hfind : findSubFrom d.source.data part.data p = none := by
          cases hf2 : findSubFrom d.source.data part.data p with
          | none => rfl
          | some s =>
            unfold candidateMatches at hd
            simp [hS, hf2] at hd
        simp only [hfind]
        rw [ih c post _ hpre2 hc]
        simp
      · rw [if_neg hS, ih c post _ hpre2 hc]
        simp

/-- Counterexample to C2: with two deduplicated candidates and the match
found in the first, the returned candidate-name list stops at the match,
so the name of the second deduplicated candidate is missing from it even
though the claim requires the full list regardless of which candidate
matched. -/
theorem c2_counterexample :
    (create_exception_with_template_debug "y" (some 0)
        [{ templateName := some "a.html", source := "x y" },
          { templateName := some "b.html", source := "z" }]).2.2 = ["a.html"]
  ∧ ({ templateName := some "b.html", source := "z" } : TplCandidate) ∈
      dedupKeepFirst
        [({ templateName := some "a.html", source := "x y" } : TplCandidate),
          { templateName := some "b.html", source := "z" }]
  ∧ candidateListedName { templateName := some "b.html", source := "z" } ∉
      (create_exception_with_template_debug "y" (some 0)
        [{ templateName := some "a.html", source := "x y" },
          { templateName := some "b.html", source := "z" }]).2.2 := by
  refine ⟨rfl, by decide, by decide⟩

/-- C2 as amended, for every input. When no deduplicated candidate
matches, every deduplicated candidate name is returned with the
unknown-source sentinel appended when absent, and the resolved name is
the unknown-source sentinel with no span. When the deduplicated list
splits as non-matching candidates, then a matching candidate, then a
remainder, the locator returns that candidate and its span together with
exactly the names accumulated up to and including it, so the name list is
truncated at the match and the remainder is never listed. -/
theorem c2_locator_names_amended (part : String) (tokenPos : Option Nat)
    (cands : List TplCandidate) :
    ((∀ c ∈ dedupKeepFirst cands,
        candidateMatches part tokenPos c = false) →
      create_exception_with_template_debug part tokenPos cands =
        (UNKNOWN_SOURCE, none,
          appendUnknown ((dedupKeepFirst cands).map candidateListedName))
      ∧ ∀ c ∈ dedupKeepFirst cands,
          candidateListedName c ∈
            (create_exception_with_template_debug part tokenPos cands).2.2)
  ∧ ∀ (pre : List TplCandidate) (c : TplCandidate)
      (post : List TplCandidate),
      dedupKeepFirst cands = pre ++ c :: post →
      (∀ d ∈ pre, candidateMatches part tokenPos d = false) →
      candidateMatches part tokenPos c = true →
      create_exception_with_template_debug part tokenPos cands =
        (candidateReturnName c, matchSpan part tokenPos c,
          (pre ++ [c]).map candidateListedName) := by
  constructor
  · intro h
    have hmain :=
      locatorLoop_no_match part tokenPos (dedupKeepFirst cands) [] h
    rw [List.nil_append] at hmain
    constructor
    · exact hmain
    · intro c hcm
      show candidateListedName c ∈
        (create_exception_with_template_debug part tokenPos cands).2.2
      unfold create_exception_with_template_debug
      rw [hmain]
      exact mem_appendUnknown (List.mem_map_of_mem _ hcm)
  · intro pre c post hdecomp hpre hc
    unfold create_exception_with_template_debug
    rw [hdecomp, locatorLoop_match part tokenPos pre c post [] hpre hc,
      List.nil_append]

/-- Witness for C2 as amended, exercising both routes: one candidate with
an empty faked source reaches the fallback with the full name list plus
the sentinel, and two candidates with the match in the first return that
name, the span and the truncated one-name list. -/
theorem c2_locator_names_amended_witness :
    create_exception_with_template_debug "y" none
        [{ templateName := some "a.html", source := "" }] =
      (UNKNOWN_SOURCE, none, ["a.html", UNKNOWN_SOURCE])
  ∧ create_exception_with_template_debug "y" (some 0)
        [{ templateName := some "a.html", source := "x y" },
          { templateName := some "b.html", source := "z" }] =
      ("a.html", some (2, 3), ["a.html"]) := by
  constructor
  · have h := ((c2_locator_names_amended "y" none
      [{ templateName := some "a.html", source := "" }]).1 (by decide)).1
    exact h.trans (by decide)
  · have h := (c2_locator_names_amended "y" (some 0)
      [{ templateName := some "a.html", source := "x y" },
        { templateName := some "b.html", source := "z" }]).2
      [] { templateName := some "a.html", source := "x y" }
      [{ templateName := some "b.html", source := "z" }]
      (by decide) (by decide) (by decide)
    exact h.trans (by decide)

/-- The per-element errors of the iterable branch are exactly one error
for each non-string element, in order. -/
theorem flatMap_expectedStringError (items : List PyVal) :
    (items.flatMap (fun var =>
      if var.isStr = false then [expectedStringError var] else [])) =
      (items.filter (fun v => !v.isStr)).map expectedStringError := by
  induction items with
  | nil => rfl
  | cons v rest ih =>
    cases hv : v.isStr <;>
      simp [List.flatMap_cons, List.filter_cons, hv, ih]

/-- C8: validation collects rather than stops: a bare string setting
yields exactly the one appears-to-be-a-string error, its character
elements contributing nothing further, and a tuple setting yields exactly
one expected-a-string error per non-string element. -/
theorem c8_validation_collects :
    (∀ s : String, check_user_blacklists (PyVal.pstr s) =
      [{ msg := "Setting appears to be a string",
         hint := some "Should be a sequence or dictionary (eg: [\x27myvar\x27, \x27myvar2\x27])",
         obj := BLACKLIST_OBJ }])
  ∧ (∀ xs : List PyVal, check_user_blacklists (PyVal.ptuple xs) =
      (xs.filter (fun v => !v.isStr)).map expectedStringError) := by
  constructor
  · intro s
    have h1 : check_user_blacklists (PyVal.pstr s) =
        [{ msg := "Setting appears to be a string",
           hint := some "Should be a sequence or dictionary (eg: [\x27myvar\x27, \x27myvar2\x27])",
           obj := BLACKLIST_OBJ }] ++
          ((s.data.map (fun c => PyVal.pstr (String.mk [c]))).flatMap
            (fun var =>
              if var.isStr = false then [expectedStringError var] else [])) := rfl
    rw [h1, flatMap_expectedStringError]
    have hchars : ((s.data.map (fun c => PyVal.pstr (String.mk [c]))).filter
        (fun v => !v.isStr)) = [] := by
      induction s.data with
      | nil => rfl
      | cons c rest ih => simp [List.filter_cons, PyVal.isStr, ih]
    rw [hchars]
    simp
  · intro xs
    have h1 : check_user_blacklists (PyVal.ptuple xs) =
        xs.flatMap (fun var =>
          if var.isStr = false then [expectedStringError var] else []) := rfl
    rw [h1, flatMap_expectedStringError]

/-- The boolean strict comparison of fractions agrees with the rational
order of their values. -/
theorem fracLt_iff (a b : Frac) : fracLt a b = true ↔ a.val < b.val := by
  unfold fracLt Frac.val
  rw [decide_eq_true_iff, div_lt_div_iff₀ (by positivity) (by positivity)]
  constructor
  · intro h
    exact_mod_cast h
  · intro h
    exact_mod_cast h

/-- The boolean comparison of fractions agrees with the rational order of
their values. -/
theorem fracLe_iff (a b : Frac) : fracLe a b = true ↔ a.val ≤ b.val := by
  unfold fracLe Frac.val
  rw [decide_eq_true_iff, div_le_div_iff₀ (by positivity) (by positivity)]
  constructor
  · intro h
    exact_mod_cast h
  · intro h
    exact_mod_cast h

/-- Lexicographic character comparison is transitive. -/
theorem charListLt_trans : ∀ a b c : List Char, charListLt a b = true →
    charListLt b c = true → charListLt a c = true := by
  intro a
  induction a with
  | nil =>
    intro b c hab hbc
    cases c with
    | nil =>
      cases b with
      | nil => exact absurd hab (by simp [charListLt])
      | cons y ys => exact absurd hbc (by simp [charListLt])
    | cons z zs => simp [charListLt]
  | cons x xs ih =>
    intro b c hab hbc
    cases b with
    | nil => exact absurd hab (by simp [charListLt])
    | cons y ys =>
      cases c with
      | nil => exact absurd hbc (by simp [charListLt])
      | cons z zs =>
        unfold charListLt at hab hbc ⊢
        by_cases hxy : x = y
        · subst hxy
          rw [if_pos rfl] at hab
          by_cases hyz : x = z
          · subst hyz
            rw [if_pos rfl] at hbc ⊢
            exact ih ys zs hab hbc
          · rw [if_neg hyz] at hbc ⊢
            exact hbc
        · rw [if_neg hxy, decide_eq_true_iff] at hab
          by_cases hyz : y = z
          · subst hyz
            rw [if_neg hxy, decide_eq_true_iff]
            exact hab
          · rw [if_neg hyz, decide_eq_true_iff] at hbc
            have hxz : x < z := lt_trans hab hbc
            rw [if_neg (ne_of_lt hxz), decide_eq_true_iff]
            exact hxz

/-- The complement of the lexicographic comparison is transitive. -/
theorem charListLt_false_trans : ∀ a b c : List Char,
    charListLt a b = false → charListLt b c = false →
    charListLt a c = false := by
  intro a
  induction a with
  | nil =>
    intro b c hab hbc
    cases b with
    | cons y ys => exact absurd hab (by simp [charListLt])
    | nil =>
      cases c with
      | cons z zs => exact absurd hbc (by simp [charListLt])
      | nil => rfl
  | cons x xs ih =>
    intro b c hab hbc
    cases c with
    | nil => rfl
    | cons z zs =>
      cases b with
      | nil => exact absurd hbc (by simp [charListLt])
      | cons y ys =>
        unfold charListLt at hab hbc ⊢
        by_cases hxy : x = y
        · subst hxy
          rw [if_pos rfl] at hab
          by_cases hxz : x = z
          · subst hxz
            rw [if_pos rfl] at hbc ⊢
            exact ih ys zs hab hbc
          · rw [if_neg hxz] at hbc ⊢
            exact hbc
        · rw [if_neg hxy, decide_eq_false_iff_not] at hab
          by_cases hyz : y = z
          · subst hyz
            rw [if_neg hxy, decide_eq_false_iff_not]
            exact hab
          · rw [if_neg hyz, decide_eq_false_iff_not] at hbc
            by_cases hxz : x = z
            · subst hxz
              exact absurd (le_antisymm (le_of_not_lt hbc) (le_of_not_lt hab)) hxy
            · rw [if_neg hxz, decide_eq_false_iff_not]
              exact not_lt.mpr (le_trans (le_of_not_lt hbc) (le_of_not_lt hab))

/-- The lexicographic comparison is asymmetric. -/
theorem charListLt_asymm : ∀ a b : List Char,
    charListLt a b = true → charListLt b a = false := by
  intro a
  induction a with
  | nil =>
    intro b h
    cases b with
    | nil => exact absurd h (by simp [charListLt])
    | cons y ys => rfl
  | cons x xs ih =>
    intro b h
    cases b with
    | nil => exact absurd h (by simp [charListLt])
    | cons y ys =>
      unfold charListLt at h ⊢
      by_cases hxy : x = y
      · subst hxy
        rw [if_pos rfl] at h ⊢
        exact ih ys h
      · rw [if_neg hxy, decide_eq_true_iff] at h
        rw [if_neg (fun hyx => hxy hyx.symm), decide_eq_false_iff_not]
        exact lt_asymm h

/-- Characterization of the nlargest tuple ordering through the rational
values. -/
theorem scoreGe_iff (p q : Frac × String) :
    scoreGe p q = true ↔
      (q.1.val < p.1.val ∨
        (¬ p.1.val < q.1.val ∧ charListLt p.2.data q.2.data = false)) := by
  unfold scoreGe
  rw [Bool.or_eq_true, Bool.and_eq_true]
  rw [fracLt_iff]
  constructor
  · rintro (h | ⟨h1, h2⟩)
    · exact Or.inl h
    · refine Or.inr ⟨?_, ?_⟩
      · rw [Bool.not_eq_true'] at h1
        intro hlt
        rw [← fracLt_iff] at hlt
        rw [hlt] at h1
        cases h1
      · rwa [Bool.not_eq_true'] at h2
  · rintro (h | ⟨h1, h2⟩)
    · exact Or.inl h
    · refine Or.inr ⟨?_, ?_⟩
      · rw [Bool.not_eq_true']
        rw [← fracLt_iff] at h1
        exact Bool.not_eq_true _ ▸ (by simpa using h1)
      · rw [Bool.not_eq_true']
        exact h2

/-- The nlargest ordering is transitive. -/
theorem scoreGe_trans : ∀ p q r : Frac × String,
    scoreGeP p q → scoreGeP q r → scoreGeP p r := by
  intro p q r hpq hqr
  unfold scoreGeP at hpq hqr ⊢
  rw [scoreGe_iff] at hpq hqr ⊢
  rcases hpq with h1 | ⟨h1, s1⟩
  · rcases hqr with h2 | ⟨h2, s2⟩
    · exact Or.inl (lt_trans h2 h1)
    · exact Or.inl (lt_of_le_of_lt (le_of_not_lt h2) h1)
  · rcases hqr with h2 | ⟨h2, s2⟩
    · exact Or.inl (lt_of_lt_of_le h2 (le_of_not_lt h1))
    · exact Or.inr ⟨fun hlt => h1 (lt_of_lt_of_le hlt (le_of_not_lt h2)),
        charListLt_false_trans _ _ _ s1 s2⟩

/-- The nlargest ordering is total. -/
theorem scoreGe_total : ∀ p q : Frac × String, scoreGeP p q ∨ scoreGeP q p := by
  intro p q
  unfold scoreGeP
  rw [scoreGe_iff, scoreGe_iff]
  rcases lt_trichotomy p.1.val q.1.val with h | h | h
  · exact Or.inr (Or.inl h)
  · by_cases hc : charListLt p.2.data q.2.data = true
    · exact Or.inr (Or.inr ⟨fun hlt => absurd h (ne_of_gt hlt),
        charListLt_asymm _ _ hc⟩)
    · exact Or.inl (Or.inr ⟨fun hlt => absurd h (ne_of_lt hlt),
        Bool.not_eq_true _ ▸ (by simpa using hc)⟩)
  · exact Or.inl (Or.inl h)

/-- The nlargest ordering implies the plain ratio ordering on the first
components. -/
theorem scoreGe_fracLe {p q : Frac × String} (h : scoreGe p q = true) :
    fracLe q.1 p.1 = true := by
  rw [scoreGe_iff] at h
  rw [fracLe_iff]
  rcases h with h | ⟨h, _⟩
  · exact le_of_lt h
  · exact le_of_not_lt h

/-- Every scored pair of get_close_matches carries exactly the ratio of
its candidate against the word, and its candidate is drawn from the
possibilities. -/
theorem gcmScored_mem {word : String} {poss : List String}
    {pr : Frac × String} (h : pr ∈ gcmScored word poss) :
    pr.1 = seqMatcherScore pr.2.data word.data ∧ pr.2 ∈ poss := by
  rw [gcmScored, List.mem_filterMap] at h
  obtain ⟨x, hx, hfx⟩ := h
  split_ifs at hfx with h1 h2 h3
  cases hfx
  exact ⟨rfl, hx⟩

/-- The output of get_close_matches is ordered by weakly decreasing ratio
against the word. -/
theorem get_close_matches_sorted (word : String) (poss : List String) :
    List.Pairwise (fun u v : String =>
      fracLe (seqMatcherScore v.data word.data)
        (seqMatcherScore u.data word.data) = true)
      (get_close_matches word poss) := by
  unfold get_close_matches
  rw [List.pairwise_map]
  have hsorted : List.Pairwise scoreGeP
      (List.insertionSort scoreGeP (gcmScored word poss)) :=
    @List.sorted_insertionSort _ scoreGeP _ ⟨scoreGe_total⟩
      ⟨scoreGe_trans⟩ _
  have htake : List.Pairwise scoreGeP
      ((List.insertionSort scoreGeP (gcmScored word poss)).take 3) :=
    List.Pairwise.sublist (List.take_sublist 3 _) hsorted
  refine htake.imp_of_mem ?_
  intro p q hp hq hpq
  have hpmem : p ∈ gcmScored word poss :=
    (List.perm_insertionSort scoreGeP _).mem_iff.mp
      ((List.take_sublist 3 _).subset hp)
  have hqmem : q ∈ gcmScored word poss :=
    (List.perm_insertionSort scoreGeP _).mem_iff.mp
      ((List.take_sublist 3 _).subset hq)
  have hle := scoreGe_fracLe hpq
  rw [(gcmScored_mem hpmem).1, (gcmScored_mem hqmem).1] at hle
  exact hle

/-- get_close_matches keeps at most three entries. -/
theorem get_close_matches_length (word : String) (poss : List String) :
    (get_close_matches word poss).length ≤ 3 := by
  unfold get_close_matches
  rw [List.length_map, List.length_take]
  exact min_le_left _ _

/-- Membership after an upsert comes from the inserted pair or from the
original list. -/
theorem assocUpsert_mem : ∀ (m : List (String × String)) (k v : String)
    (kv : String × String), kv ∈ assocUpsert m k v → kv = (k, v) ∨ kv ∈ m := by
  intro m
  induction m with
  | nil =>
    intro k v kv h
    simp [assocUpsert] at h
    exact Or.inl h
  | cons hd tl ih =>
    intro k v kv h
    obtain ⟨k0, v0⟩ := hd
    simp only [assocUpsert] at h
    split_ifs at h with hk
    · rcases List.mem_cons.mp h with h1 | h1
      · exact Or.inl h1
      · exact Or.inr (List.mem_cons_of_mem _ h1)
    · rcases List.mem_cons.mp h with h1 | h1
      · exact Or.inr (h1 ▸ List.mem_cons_self _ _)
      · rcases ih k v kv h1 with h2 | h2
        · exact Or.inl h2
        · exact Or.inr (List.mem_cons_of_mem _ h2)

/-- Any pair in the folded lowercase map is either inherited from the
accumulator or maps the lowercase of one of the possibilities to it. -/
theorem foldl_upsert_mem : ∀ (poss : List String)
    (m : List (String × String)) (kv : String × String),
    kv ∈ poss.foldl (fun acc p => assocUpsert acc (lowerStr p) p) m →
    kv ∈ m ∨ (lowerStr kv.2 = kv.1 ∧ kv.2 ∈ poss) := by
  intro poss
  induction poss with
  | nil =>
    intro m kv h
    exact Or.inl h
  | cons p ps ih =>
    intro m kv h
    rcases ih _ kv h with h1 | h2
    · rcases assocUpsert_mem _ _ _ _ h1 with h3 | h4
      · subst h3
        exact Or.inr ⟨rfl, List.mem_cons_self _ _⟩
      · exact Or.inl h4
    · exact Or.inr ⟨h2.1, List.mem_cons_of_mem _ h2.2⟩

/-- A successful lookup in an association list locates a stored pair. -/
theorem assocFind_mem : ∀ (m : List (String × String)) (k v : String),
    assocFind m k = some v → (k, v) ∈ m := by
  intro m
  induction m with
  | nil =>
    intro k v h
    simp [assocFind] at h
  | cons hd tl ih =>
    intro k v h
    obtain ⟨k0, v0⟩ := hd
    simp only [assocFind] at h
    split_ifs at h with hk
    · cases h
      subst hk
      exact List.mem_cons_self _ _
    · exact List.mem_cons_of_mem _ (ih _ _ h)

/-- C5: the suggestion computation is case-insensitive through the
lowercase map and maps close matches back to original casing; the three
round-trip cases of the spec hold, and for every candidate list and
failing token the output is ordered by weakly descending similarity. -/
theorem c5_suggestions :
    suggestClosest ["be"] "b" = ["be"]
  ∧ (∀ bit, suggestClosest [] bit = [])
  ∧ suggestClosest ["cg", "cf", "ce"] "c" = ["cg", "cf", "ce"]
  ∧ ∀ (possibilities : List String) (bit : String),
      List.Pairwise
        (fun u v => fracLe (simScore bit v) (simScore bit u) = true)
        (suggestClosest possibilities bit) := by
  refine ⟨by decide, fun bit => rfl, by decide, ?_⟩
  intro poss bit
  unfold suggestClosest
  by_cases hemp : (get_close_matches (lowerStr bit)
      ((possibilities_mapped poss).map Prod.fst)).isEmpty = true
  · rw [if_pos hemp, List.isEmpty_iff.mp hemp]
    exact List.Pairwise.nil
  · rw [if_neg hemp, List.pairwise_filterMap]
    have hkeys := get_close_matches_sorted (lowerStr bit)
      ((possibilities_mapped poss).map Prod.fst)
    refine hkeys.imp ?_
    intro k1 k2 hk v1 hv1 v2 hv2
    have h1 : (k1, v1) ∈ possibilities_mapped poss :=
      assocFind_mem _ _ _ (Option.mem_def.mp hv1)
    have h2 : (k2, v2) ∈ possibilities_mapped poss :=
      assocFind_mem _ _ _ (Option.mem_def.mp hv2)
    have e1 : lowerStr v1 = k1 :=
      ((foldl_upsert_mem poss [] _ h1).resolve_left (by simp)).1
    have e2 : lowerStr v2 = k2 :=
      ((foldl_upsert_mem poss [] _ h2).resolve_left (by simp)).1
    unfold simScore
    rw [e1, e2]
    exact hk

/-- Anything in the order-preserving dedup was in the source list. -/
theorem mem_dedupKeepFirst_aux {α : Type} [BEq α] :
    ∀ (l acc : List α) (x : α),
    x ∈ l.foldl (fun a y => if a.contains y then a else a ++ [y]) acc →
    x ∈ acc ∨ x ∈ l := by
  intro l
  induction l with
  | nil =>
    intro acc x h
    exact Or.inl h
  | cons y ys ih =>
    intro acc x h
    rcases ih _ x h with h1 | h2
    · dsimp only at h1
      by_cases hc : acc.contains y = true
      · rw [if_pos hc] at h1
        exact Or.inl h1
      · rw [if_neg hc] at h1
        rcases List.mem_append.mp h1 with h3 | h4
        · exact Or.inl h3
        · simp at h4
          exact Or.inr (h4 ▸ List.mem_cons_self _ _)
    · exact Or.inr (List.mem_cons_of_mem _ h2)

/-- Dedup keeps only elements of its input. -/
theorem mem_dedupKeepFirst {α : Type} [BEq α] {l : List α} {x : α}
    (h : x ∈ dedupKeepFirst l) : x ∈ l := by
  rcases mem_dedupKeepFirst_aux l [] x h with h1 | h1
  · cases h1
  · exact h1

/-- C9: every suggestion list built over the enumerated candidate pool
has at most three names, each a member of the pool, and none starting
with an underscore, since underscore-initial names are filtered from the
pool before matching. -/
theorem c9_suggestion_invariants (poss dir : List String) (bit : String) :
    (suggestClosest (buildPossibilities poss dir) bit).length ≤ 3
  ∧ ∀ s ∈ suggestClosest (buildPossibilities poss dir) bit,
      s ∈ buildPossibilities poss dir ∧ startsWithUnderscore s = false := by
  constructor
  · unfold suggestClosest
    by_cases hemp : (get_close_matches (lowerStr bit)
        ((possibilities_mapped (buildPossibilities poss dir)).map
          Prod.fst)).isEmpty = true
    · rw [if_pos hemp, List.isEmpty_iff.mp hemp]
      simp
    · rw [if_neg hemp]
      exact le_trans (List.length_filterMap_le _ _)
        (get_close_matches_length _ _)
  · intro s hs
    unfold suggestClosest at hs
    by_cases hemp : (get_close_matches (lowerStr bit)
        ((possibilities_mapped (buildPossibilities poss dir)).map
          Prod.fst)).isEmpty = true
    · rw [if_pos hemp, List.isEmpty_iff.mp hemp] at hs
      cases hs
    · rw [if_neg hemp, List.mem_filterMap] at hs
      obtain ⟨k, _, hfind⟩ := hs
      have hpair := assocFind_mem _ _ _ hfind
      have hval : s ∈ buildPossibilities poss dir :=
        ((foldl_upsert_mem _ [] _ hpair).resolve_left (by simp)).2
      refine ⟨hval, ?_⟩
      have hin := mem_dedupKeepFirst (l :=
        (poss.filter (fun x => !(startsWithUnderscore x))) ++
          (dir.filter (fun x => !(startsWithUnderscore x)))) hval
      rcases List.mem_append.mp hin with h5 | h5 <;>
        simpa using (List.mem_filter.mp h5).2

/-- Witness for C9 at the pool built from one ordinary name: the returned
suggestion is in the pool and does not start with an underscore. -/
theorem c9_suggestion_invariants_witness :
    (suggestClosest (buildPossibilities ["be"] []) "b").length ≤ 3
  ∧ ("be" ∈ buildPossibilities ["be"] [] ∧
      startsWithUnderscore "be" = false) :=
  ⟨(c9_suggestion_invariants ["be"] [] "b").1,
    (c9_suggestion_invariants ["be"] [] "b").2 "be" (by decide)⟩

end Shouty
